import Mathlib

/-!
Verification development for the transcript significance ranking and tiered
persistence pipeline (`src/lib/sync-manager.ts`, `src/lib/keyword-extractor.ts`,
`lib/indexeddb-storage.ts`, `lib/transcription-data-manager.ts`).

The TypeScript sources are shallowly embedded: JavaScript numbers used as
integer timestamps and counters become `Int`/`Nat`, floating-point scores and
weights become `ℚ` (every operation the scorer performs is exact on the
rationals), the IndexedDB object stores become lists of records keyed by their
IndexedDB key, and `async` functions that can throw become functions returning
`Except String _` or functions parameterised by the outcome of each external
call.  External libraries that are not part of this repository (the
TinySegmenter tokenizer and the BudouX phrase parser) are taken as function
parameters, so every theorem below holds for every behaviour of those
libraries.
-/

set_option maxRecDepth 20000

namespace Transcription

/-! ## Data model (`src/types/speech.ts`) -/

/-- A transcript entry: `Transcript` of `src/types/speech.ts`. -/
structure Transcript where
  text : String
  timestamp : Int
  isFinal : Bool
deriving DecidableEq, Repr

/-- A Supabase row: `TranscriptRow` of `src/lib/supabase.ts` (the optional
server-side columns `id`, `created_at`, `synced_at` are filled in remotely and
never read by this code, so they are not modelled). -/
structure TranscriptRow where
  text : String
  timestamp : Int
  is_final : Bool
deriving DecidableEq, Repr

/-- The row conversion `t => ({text: t.text, timestamp: t.timestamp, is_final: t.isFinal})`
done by `syncToSupabase` before pushing. -/
def toRow (t : Transcript) : TranscriptRow :=
  { text := t.text, timestamp := t.timestamp, is_final := t.isFinal }

/-! ## The `by-timestamp` IndexedDB index

`deleteOldFromIndexedDB` walks the `by-timestamp` index with a `'prev'`
cursor, i.e. it sees the entries in descending timestamp order.  The store is
modelled as a `List Transcript` (IndexedDB guarantees the `timestamp` keys are
unique; theorems that need this take a `Nodup` hypothesis), and the descending
cursor as sorting by `tsDesc`.  `List.insertionSort` is a sort consistent with
the comparator, which is all the IndexedDB index order guarantees here. -/

/-- Descending-timestamp comparison (the `'prev'` cursor order). -/
def tsDesc (a b : Transcript) : Prop := b.timestamp ≤ a.timestamp

instance : DecidableRel tsDesc := fun a b =>
  decidable_of_iff (b.timestamp ≤ a.timestamp) Iff.rfl

instance : IsTotal Transcript tsDesc :=
  ⟨fun a b => le_total b.timestamp a.timestamp⟩

instance : IsTrans Transcript tsDesc :=
  ⟨fun _ _ _ h1 h2 => le_trans h2 h1⟩

/-- All entries of the store in descending timestamp order, as the `'prev'`
cursor of the `by-timestamp` index delivers them. -/
def byTimestampDesc (store : List Transcript) : List Transcript :=
  List.insertionSort tsDesc store

/-- `deleteOldFromIndexedDB(keepCount)` of `lib/indexeddb-storage.ts`
(lines 258–318): reads every entry through a descending cursor, takes
`allTranscripts.slice(keepCount)` as the entries to delete, deletes them by
timestamp, and returns them.  The result is `(returned entries, store after)`. -/
def deleteOldFromIndexedDB (store : List Transcript) (keepCount : Nat) :
    List Transcript × List Transcript :=
  let allTranscripts := byTimestampDesc store
  let toDelete := allTranscripts.drop keepCount
  match toDelete with
  | [] => ([], store)
  | _ :: _ =>
      (toDelete,
       store.filter fun t => ! toDelete.any fun d => d.timestamp == t.timestamp)

/-! ## The sync manager (`src/lib/sync-manager.ts`) -/

/-- `MAX_INDEXEDDB_COUNT` (sync-manager.ts line 13). -/
def MAX_INDEXEDDB_COUNT : Nat := 300

/-- `SYNC_BATCH_SIZE` (sync-manager.ts line 14). -/
def SYNC_BATCH_SIZE : Nat := 50

/-- The module-level mutable state of sync-manager.ts read or written by
`syncToSupabase`, together with the IndexedDB transcripts store it operates
on (`syncIntervalId` only matters to `startAutoSync`/`stopAutoSync` and is
not modelled). -/
structure SyncEnv where
  store : List Transcript
  isSyncing : Bool
  lastSyncTime : Int
deriving DecidableEq, Repr

instance {ε α : Type} [DecidableEq ε] [DecidableEq α] : DecidableEq (Except ε α) :=
  fun a b =>
    match a, b with
    | .ok x, .ok y =>
        if h : x = y then isTrue (by rw [h]) else isFalse (by simp [h])
    | .error x, .error y =>
        if h : x = y then isTrue (by rw [h]) else isFalse (by simp [h])
    | .ok _, .error _ => isFalse (by simp)
    | .error _, .ok _ => isFalse (by simp)

/-- Everything observable about one `syncToSupabase` call: its return value
(or the error it propagates), the state it leaves behind, and the sequence of
`insertTranscripts` calls it made (each element one batch, in call order). -/
structure SyncResult where
  result : Except String Nat
  store : List Transcript
  isSyncing : Bool
  lastSyncTime : Int
  batches : List (List TranscriptRow)
deriving DecidableEq, Repr

/-- Splitting into consecutive batches: the loop
`for (let i = 0; i < rows.length; i += SYNC_BATCH_SIZE)` with
`rows.slice(i, i + SYNC_BATCH_SIZE)`.  The first argument is fuel (the list
length suffices whenever `0 < n`, and `chunksOf` supplies it). -/
def chunksOfAux {α : Type} (n : Nat) : Nat → List α → List (List α)
  | _, [] => []
  | 0, _ => []
  | fuel + 1, l => l.take n :: chunksOfAux n fuel (l.drop n)

/-- The consecutive batches of size `n` of a list (last one possibly short). -/
def chunksOf {α : Type} (n : Nat) (l : List α) : List (List α) :=
  chunksOfAux n l.length l

/-- The batch loop of `syncToSupabase` (sync-manager.ts lines 90–124):
`totalSynced` starts at 0; each `insertTranscripts(batch)` call either
returns a count which is added, or throws, which is caught and skipped.
`push i batch` is the outcome of the `insertTranscripts` call for the `i`-th
batch (0-based). -/
def runBatches (push : Nat → List TranscriptRow → Except String Nat)
    (batches : List (List TranscriptRow)) : Nat :=
  batches.enum.foldl
    (fun totalSynced p =>
      match push p.1 p.2 with
      | .ok syncedCount => totalSynced + syncedCount
      | .error _ => totalSynced)
    0

/-- `syncToSupabase(force)` (sync-manager.ts lines 27–152).

The outcome of each external database call is a parameter:
`countOutcome` is whether `getIndexedDBCount()` throws (`.ok ()` means it
returns the store's size), `deleteOutcome` is whether
`deleteOldFromIndexedDB` throws (modelled as atomic: on a throw the store is
unchanged), `push i batch` is the outcome of the `i`-th `insertTranscripts`
call, and `now` is the `Date.now()` read for `lastSyncTime`.  The
`try/finally` means every path through the `try` body ends with
`isSyncing = false`; the initial guard-skip path returns before the `try`
and leaves `isSyncing` untouched. -/
def syncToSupabase (env : SyncEnv) (force : Bool)
    (countOutcome : Except String Unit) (deleteOutcome : Except String Unit)
    (push : Nat → List TranscriptRow → Except String Nat) (now : Int) :
    SyncResult :=
  -- `if (isSyncing && !force) return 0;`
  if env.isSyncing = true ∧ force = false then
    { result := .ok 0, store := env.store, isSyncing := env.isSyncing,
      lastSyncTime := env.lastSyncTime, batches := [] }
  else
    match countOutcome with
    | .error e =>
        -- `getIndexedDBCount()` threw: the outer catch rethrows, finally runs.
        { result := .error e, store := env.store, isSyncing := false,
          lastSyncTime := env.lastSyncTime, batches := [] }
    | .ok _ =>
        let count := env.store.length
        -- `if (count <= MAX_INDEXEDDB_COUNT && !force) return 0;`
        if count ≤ MAX_INDEXEDDB_COUNT ∧ force = false then
          { result := .ok 0, store := env.store, isSyncing := false,
            lastSyncTime := env.lastSyncTime, batches := [] }
        else
          match deleteOutcome with
          | .error e =>
              { result := .error e, store := env.store, isSyncing := false,
                lastSyncTime := env.lastSyncTime, batches := [] }
          | .ok _ =>
              let deleted := deleteOldFromIndexedDB env.store MAX_INDEXEDDB_COUNT
              match deleted.1 with
              | [] =>
                  -- `if (toSync.length === 0) return 0;`
                  { result := .ok 0, store := deleted.2, isSyncing := false,
                    lastSyncTime := env.lastSyncTime, batches := [] }
              | _ :: _ =>
                  let transcriptRows := deleted.1.map toRow
                  let batches := chunksOf SYNC_BATCH_SIZE transcriptRows
                  { result := .ok (runBatches push batches), store := deleted.2,
                    isSyncing := false, lastSyncTime := now, batches := batches }

/-- A store of `n` entries, timestamps `n-1, n-2, …, 0` (already in the
index's descending order), used as concrete scenario input. -/
def descTranscripts (n : Nat) : List Transcript :=
  (List.range n).map fun i => { text := "e", timestamp := ((n - 1 - i : Nat) : Int), isFinal := true }

/-- What one batch contributes to `totalSynced`: the count `insertTranscripts`
returned when it succeeded, nothing when it threw. -/
def batchContribution (push : Nat → List TranscriptRow → Except String Nat)
    (p : Nat × List TranscriptRow) : Nat :=
  match push p.1 p.2 with
  | .ok syncedCount => syncedCount
  | .error _ => 0

/-! ## Helper lemmas about the sync model -/

theorem length_byTimestampDesc (store : List Transcript) :
    (byTimestampDesc store).length = store.length :=
  (List.perm_insertionSort tsDesc store).length_eq

theorem deleteOld_fst (store : List Transcript) (k : Nat) :
    (deleteOldFromIndexedDB store k).1 = (byTimestampDesc store).drop k := by
  simp only [deleteOldFromIndexedDB]
  split
  next heq => simpa using heq.symm
  next => rfl

theorem deleteOld_fst_ne_nil (store : List Transcript) (k : Nat)
    (h : k < store.length) : (deleteOldFromIndexedDB store k).1 ≠ [] := by
  rw [deleteOld_fst]
  intro hnil
  have := congrArg List.length hnil
  rw [List.length_drop, length_byTimestampDesc] at this
  simp at this
  omega

theorem runBatches_foldl_enumFrom (push : Nat → List TranscriptRow → Except String Nat) :
    ∀ (l : List (List TranscriptRow)) (n acc : Nat),
      (List.enumFrom n l).foldl
          (fun totalSynced p =>
            match push p.1 p.2 with
            | .ok syncedCount => totalSynced + syncedCount
            | .error _ => totalSynced) acc
        = acc + ((List.enumFrom n l).map (batchContribution push)).sum := by
  intro l
  induction l with
  | nil => intro n acc; simp
  | cons b t ih =>
      intro n acc
      simp only [List.enumFrom, List.foldl_cons, List.map_cons, List.sum_cons]
      rw [ih]
      cases hp : push n b
      case ok c =>
        simp only [batchContribution, hp]
        rw [Nat.add_assoc]
      case error e =>
        simp only [batchContribution, hp]
        rw [Nat.zero_add]

theorem runBatches_eq_sum (push : Nat → List TranscriptRow → Except String Nat)
    (batches : List (List TranscriptRow)) :
    runBatches push batches = (batches.enum.map (batchContribution push)).sum := by
  unfold runBatches
  rw [show batches.enum = List.enumFrom 0 batches from rfl,
    runBatches_foldl_enumFrom]
  simp

/-! ## Claim theorems about the sync manager -/

/-- C2 (code_bug evaluation): with entries at timestamps `{0, 1, 2}` and
`keepCount = 1`, `deleteOldFromIndexedDB` does remove the two oldest entries
and does leave exactly one behind, but it returns the removed entries in
*descending* timestamp order `[1, 0]`, not the ascending order `[0, 1]` stated
by the spec and by the caller's own comment (sync-manager.ts line 69,
"古い順に", i.e. oldest first). -/
theorem deleteOld_returns_newest_first :
    (deleteOldFromIndexedDB (descTranscripts 3) 1).1.map (fun t => t.timestamp) = [1, 0] ∧
    (deleteOldFromIndexedDB (descTranscripts 3) 1).2.map (fun t => t.timestamp) = [2] := by
  decide

/-- C1 (counterexample): in a state with `isSyncing = true` and 301 buffered
entries, a forced `syncToSupabase` call is *not* skipped: it evicts an entry
(301 entries become 300) and attempts one push batch, contradicting the claim
that a forced call during an in-progress sync performs no eviction and no
push. -/
theorem syncForced_runs_during_sync_cex :
    ((syncToSupabase { store := descTranscripts 301, isSyncing := true, lastSyncTime := 0 }
        true (.ok ()) (.ok ()) (fun _ batch => .ok batch.length) 7).batches.length = 1) ∧
    ((syncToSupabase { store := descTranscripts 301, isSyncing := true, lastSyncTime := 0 }
        true (.ok ()) (.ok ()) (fun _ batch => .ok batch.length) 7).store.length = 300) ∧
    ((syncToSupabase { store := descTranscripts 301, isSyncing := true, lastSyncTime := 0 }
        true (.ok ()) (.ok ()) (fun _ batch => .ok batch.length) 7).result = .ok 1) := by
  decide

/-- C1 (amended): the `isSyncing` guard only skips non-forced calls.  A forced
call proceeds exactly as if no sync were in progress — same result, same
buffer effect, same pushes — while a non-forced call issued during an
in-progress sync is skipped: it returns 0 and changes nothing (the flag stays
as the in-progress sync left it). -/
theorem syncForced_bypasses_guard
    (store : List Transcript) (last : Int)
    (countOutcome deleteOutcome : Except String Unit)
    (push : Nat → List TranscriptRow → Except String Nat) (now : Int) :
    (syncToSupabase { store := store, isSyncing := true, lastSyncTime := last } true
        countOutcome deleteOutcome push now
      = syncToSupabase { store := store, isSyncing := false, lastSyncTime := last } true
        countOutcome deleteOutcome push now) ∧
    (∀ env : SyncEnv, env.isSyncing = true →
      syncToSupabase env false countOutcome deleteOutcome push now
        = { result := .ok 0, store := env.store, isSyncing := true,
            lastSyncTime := env.lastSyncTime, batches := [] }) := by
  constructor
  · rfl
  · intro env h
    unfold syncToSupabase
    rw [if_pos ⟨h, rfl⟩, h]

/-- C5: a non-forced `syncToSupabase` call in a state whose buffer holds at
most `MAX_INDEXEDDB_COUNT` entries returns 0, leaves the buffer exactly as it
was, and attempts no push. -/
theorem syncUnderCap_noop
    (env : SyncEnv) (deleteOutcome : Except String Unit)
    (push : Nat → List TranscriptRow → Except String Nat) (now : Int)
    (hcap : env.store.length ≤ MAX_INDEXEDDB_COUNT) :
    ((syncToSupabase env false (.ok ()) deleteOutcome push now).result = .ok 0) ∧
    ((syncToSupabase env false (.ok ()) deleteOutcome push now).store = env.store) ∧
    ((syncToSupabase env false (.ok ()) deleteOutcome push now).batches = []) := by
  simp only [syncToSupabase]
  by_cases hs : env.isSyncing = true
  · rw [if_pos (⟨hs, trivial⟩ : env.isSyncing = true ∧ True)]
    exact ⟨rfl, rfl, rfl⟩
  · rw [if_neg (fun hc => hs hc.1),
      if_pos (⟨hcap, trivial⟩ : env.store.length ≤ MAX_INDEXEDDB_COUNT ∧ True)]
    exact ⟨rfl, rfl, rfl⟩

/-- C5 (witness): the no-op conclusion at the empty buffer. -/
theorem syncUnderCap_noop_witness :
    (({ store := [], isSyncing := false, lastSyncTime := 0 } : SyncEnv).store.length
        ≤ MAX_INDEXEDDB_COUNT) ∧
    (((syncToSupabase { store := [], isSyncing := false, lastSyncTime := 0 } false
        (.ok ()) (.ok ()) (fun _ _ => .ok 0) 9).result = .ok 0) ∧
      ((syncToSupabase { store := [], isSyncing := false, lastSyncTime := 0 } false
        (.ok ()) (.ok ()) (fun _ _ => .ok 0) 9).store = []) ∧
      ((syncToSupabase { store := [], isSyncing := false, lastSyncTime := 0 } false
        (.ok ()) (.ok ()) (fun _ _ => .ok 0) 9).batches = [])) :=
  ⟨by decide,
   syncUnderCap_noop { store := [], isSyncing := false, lastSyncTime := 0 }
     (.ok ()) (fun _ _ => .ok 0) 9 (by decide)⟩

/-- C6: in a sync cycle that reaches the batch loop (guard passed, counting
and eviction succeed, buffer over the cap), every batch is attempted exactly
once in order — a batch whose push throws is caught, never retried, and does
not stop the following batches — the error is not propagated (the call still
returns `.ok`), and the returned count is the sum of the inserted counts of
the batches that succeeded (failed batches contribute nothing). -/
theorem syncBatchErrors_skipped
    (env : SyncEnv) (force : Bool)
    (push : Nat → List TranscriptRow → Except String Nat) (now : Int)
    (hguard : ¬ (env.isSyncing = true ∧ force = false))
    (hover : MAX_INDEXEDDB_COUNT < env.store.length) :
    ((syncToSupabase env force (.ok ()) (.ok ()) push now).batches
        = chunksOf SYNC_BATCH_SIZE
            ((deleteOldFromIndexedDB env.store MAX_INDEXEDDB_COUNT).1.map toRow)) ∧
    ((syncToSupabase env force (.ok ()) (.ok ()) push now).result
        = .ok (((chunksOf SYNC_BATCH_SIZE
              ((deleteOldFromIndexedDB env.store MAX_INDEXEDDB_COUNT).1.map toRow)).enum.map
            (batchContribution push)).sum)) := by
  have hcount : ¬ (env.store.length ≤ MAX_INDEXEDDB_COUNT ∧ force = false) :=
    fun hc => absurd hc.1 (by omega)
  simp only [syncToSupabase]
  rw [if_neg hguard, if_neg hcount]
  split
  next heq => exact absurd heq (deleteOld_fst_ne_nil env.store MAX_INDEXEDDB_COUNT hover)
  next => exact ⟨rfl, by rw [runBatches_eq_sum]⟩

/-- C6 (witness): a 301-entry buffer, guard passed, with the single batch's
push throwing; the conclusion holds at this input. -/
theorem syncBatchErrors_skipped_witness :
    (¬ (({ store := descTranscripts 301, isSyncing := false, lastSyncTime := 0 } : SyncEnv).isSyncing = true
        ∧ (false : Bool) = false)) ∧
    (MAX_INDEXEDDB_COUNT
        < ({ store := descTranscripts 301, isSyncing := false, lastSyncTime := 0 } : SyncEnv).store.length) ∧
    (((syncToSupabase { store := descTranscripts 301, isSyncing := false, lastSyncTime := 0 } false
          (.ok ()) (.ok ()) (fun i _ => if i = 0 then .error "boom" else .ok 0) 3).batches
        = chunksOf SYNC_BATCH_SIZE
            ((deleteOldFromIndexedDB (descTranscripts 301) MAX_INDEXEDDB_COUNT).1.map toRow)) ∧
      ((syncToSupabase { store := descTranscripts 301, isSyncing := false, lastSyncTime := 0 } false
          (.ok ()) (.ok ()) (fun i _ => if i = 0 then .error "boom" else .ok 0) 3).result
        = .ok (((chunksOf SYNC_BATCH_SIZE
              ((deleteOldFromIndexedDB (descTranscripts 301) MAX_INDEXEDDB_COUNT).1.map toRow)).enum.map
            (batchContribution (fun i _ => if i = 0 then .error "boom" else .ok 0))).sum))) :=
  ⟨by decide, by decide,
   syncBatchErrors_skipped
     { store := descTranscripts 301, isSyncing := false, lastSyncTime := 0 } false
     (fun i _ => if i = 0 then .error "boom" else .ok 0) 3
     (by decide) (by decide)⟩

/-- C4: with 310 buffered entries (distinct timestamps 0..309),
`bufferCap = 300` and `batchSize = 50`, one `syncToSupabase` call removes
exactly the 10 oldest entries, pushes them in exactly one batch of 10 rows,
returns 10, and leaves exactly the 300 newest entries in the buffer. -/
theorem syncScenario310 :
    ((syncToSupabase { store := descTranscripts 310, isSyncing := false, lastSyncTime := 0 }
        false (.ok ()) (.ok ()) (fun _ batch => .ok batch.length) 1000).result = .ok 10) ∧
    ((syncToSupabase { store := descTranscripts 310, isSyncing := false, lastSyncTime := 0 }
        false (.ok ()) (.ok ()) (fun _ batch => .ok batch.length) 1000).batches.map
          (fun b => b.map fun r => r.timestamp)
      = [(List.range 10).map fun i => ((9 - i : Nat) : Int)]) ∧
    ((syncToSupabase { store := descTranscripts 310, isSyncing := false, lastSyncTime := 0 }
        false (.ok ()) (.ok ()) (fun _ batch => .ok batch.length) 1000).store.map
          (fun t => t.timestamp)
      = (List.range 300).map fun i => ((309 - i : Nat) : Int)) := by
  decide

/-- C10 (counterexample): a call skipped by the `isSyncing` guard terminates
with `isSyncing` still `true`, so it is not the case that the flag is false
after *every* terminating call. -/
theorem syncSkip_flag_stays_cex :
    (syncToSupabase { store := [], isSyncing := true, lastSyncTime := 0 } false
        (.ok ()) (.ok ()) (fun _ _ => .ok 0) 0).isSyncing = true := by
  decide

/-- C10 (amended): after every terminating call that enters the sync body —
every call starting with `isSyncing = false`, and every forced call — the
`isSyncing` flag is false again, whether the call returns normally, skips
because the buffer is under the cap, or propagates an error from counting or
eviction; so a failed cycle never blocks later cycles.  (A call skipped by the
guard itself leaves the flag to the in-progress sync that owns it.) -/
theorem syncToSupabase_resets_flag
    (env : SyncEnv) (force : Bool)
    (countOutcome deleteOutcome : Except String Unit)
    (push : Nat → List TranscriptRow → Except String Nat) (now : Int)
    (h : env.isSyncing = false ∨ force = true) :
    (syncToSupabase env force countOutcome deleteOutcome push now).isSyncing = false := by
  have hg : ¬ (env.isSyncing = true ∧ force = false) := by
    rcases h with h | h <;> simp [h]
  rcases countOutcome with e | u
  · simp only [syncToSupabase]
    rw [if_neg hg]
  · rcases deleteOutcome with e2 | u2
    · simp only [syncToSupabase]
      rw [if_neg hg]
      split <;> rfl
    · simp only [syncToSupabase]
      rw [if_neg hg]
      split
      · rfl
      · split <;> rfl

/-- C10 (witness): the flag is false after a normal under-cap call on the
empty buffer. -/
theorem syncToSupabase_resets_flag_witness :
    (({ store := [], isSyncing := false, lastSyncTime := 0 } : SyncEnv).isSyncing = false
      ∨ (false : Bool) = true) ∧
    (syncToSupabase { store := [], isSyncing := false, lastSyncTime := 0 } false
        (.ok ()) (.ok ()) (fun _ _ => .ok 0) 4).isSyncing = false :=
  ⟨by decide,
   syncToSupabase_resets_flag { store := [], isSyncing := false, lastSyncTime := 0 } false
     (.ok ()) (.ok ()) (fun _ _ => .ok 0) 4 (by decide)⟩

/-! ## The keyword extractor (`src/lib/keyword-extractor.ts`)

JavaScript floating-point scores are embedded as exact rationals: every
operation the scorer performs (addition, multiplication, division,
comparison) is available on `ℚ`, and every constant (`1.2`, `0.3`, …) is an
exact decimal.  JavaScript string `length`/`charAt` count UTF-16 units; the
embedding counts characters, which agrees on every character this code
handles (all are in the Basic Multilingual Plane).  `String.toLower` models
`toLowerCase` (ASCII case mapping; no token class this code distinguishes
depends on case outside ASCII).  The external TinySegmenter instance
(`segmenter.segment`) is not part of this repository and is passed in as a
function parameter `seg`; likewise the BudouX parser as `bud`. -/

/-- The whitespace class of the JavaScript regexp `\s`. -/
def isWsChar (c : Char) : Bool :=
  decide (c = ' ' ∨ c = '\t' ∨ c = '\n' ∨ c = '\r' ∨ c.toNat = 0x0B ∨ c.toNat = 0x0C ∨
    c.toNat = 0xA0 ∨ c.toNat = 0x1680 ∨ (0x2000 ≤ c.toNat ∧ c.toNat ≤ 0x200A) ∨
    c.toNat = 0x2028 ∨ c.toNat = 0x2029 ∨ c.toNat = 0x202F ∨ c.toNat = 0x205F ∨
    c.toNat = 0x3000 ∨ c.toNat = 0xFEFF)

/-- `text.trim()`. -/
def jsTrim (s : String) : String :=
  (((s.data.dropWhile isWsChar).reverse.dropWhile isWsChar).reverse).asString

/-- Helper for `splitRuns`; the first argument is fuel (and `splitRuns`
passes enough that it never runs out). -/
def splitRunsGo (p : Char → Bool) : Nat → List Char → List String
  | 0, cs => [cs.asString]
  | fuel + 1, cs =>
      let seg := cs.takeWhile (fun c => ! p c)
      let rest := cs.dropWhile (fun c => ! p c)
      match rest with
      | [] => [seg.asString]
      | _ :: _ => seg.asString :: splitRunsGo p fuel (rest.dropWhile p)

/-- `text.split(regexp)` for a regexp matching one or more characters of a
class `p` (such as `/[。！？\n]+/` or `/[\s,.!?]+/`): the segments between
maximal runs of `p`-characters, empty segments at the edges included. -/
def splitRuns (p : Char → Bool) (s : String) : List String :=
  splitRunsGo p (s.data.length + 1) s.data

/-- `containsJapanese` (keyword-extractor.ts lines 73–75): the regexp test
`/[぀-ゟ゠-ヿ一-龯]/.test(text)`. -/
def containsJapanese (text : String) : Bool :=
  text.data.any fun c =>
    decide ((0x3040 ≤ c.toNat ∧ c.toNat ≤ 0x309F) ∨
      (0x30A0 ≤ c.toNat ∧ c.toNat ≤ 0x30FF) ∨
      (0x4E00 ≤ c.toNat ∧ c.toNat ≤ 0x9FAF))

/-- `STOP_WORDS` (keyword-extractor.ts lines 37–65), in source order.  The
source stores them in a `Set`; a list with `contains` has the same membership
semantics. -/
def STOP_WORDS : List String := [
  "の", "に", "は", "を", "た", "が", "で", "て", "と", "し", "れ", "さ", "も", "から",
  "な", "へ", "か", "だ", "ば", "ら", "や", "ね", "よ", "わ", "ぞ", "ぜ", "け", "ろ",
  "この", "その", "あの", "どの",
  "これ", "それ", "あれ", "どれ",
  "ここ", "そこ", "あそこ", "どこ",
  "こんな", "そんな", "あんな", "どんな",
  "こう", "そう", "ああ", "どう",
  "こちら", "そちら", "あちら", "どちら",
  "これら", "それら", "あれら",
  "こうした", "そうした", "ああした",
  "ある", "いる", "する", "なる", "できる", "くる", "いく", "みる", "れる", "られる",
  "せる", "させる",
  "ない", "なく", "なっ", "なかっ", "よう", "また", "さらに", "とても", "すごく",
  "かなり", "もっと", "ずっと",
  "が", "けど", "でも", "しかし", "だから", "そして", "または", "ただし", "なお", "および",
  "こと", "もの", "とき", "ところ", "ため", "ほう", "ほか", "うち",
  "として", "において", "に対して", "に関する", "によって", "により", "による",
  "とともに", "と共に", "について",
  "あり", "おり", "まで", "など", "たり", "その他", "その後", "それぞれ", "たち",
  "ます", "です", "ん",
  "い", "せ", "だっ", "あっ", "う", "ので", "のみ", "でき", "き", "つ", "における",
  "いう", "といった",
  "なら", "特に", "及び", "では", "にて", "ながら", "かつて", "お", "ほど", "ものの",
  "に対する", "ほとんど", "という", "ず", "なり",
  "あー", "えー", "うー", "おー", "んー", "まあ", "ま", "えっと", "えーと", "あのー",
  "あの", "その", "そのー",
  "なんか", "ちょっと", "やっぱり", "やっぱ", "っていうか", "まぁ", "ねえ", "さあ",
  "ほら", "じゃあ", "んと"]

/-- `ENGLISH_STOP_WORDS` (keyword-extractor.ts lines 68–70), in source order. -/
def ENGLISH_STOP_WORDS : List String := [
  "the", "a", "an", "and", "or", "but", "in", "on", "at", "to", "for", "of", "with",
  "by", "from", "as", "is", "was", "are", "were", "been", "be", "have", "has", "had",
  "do", "does", "did", "will", "would", "should", "could", "may", "might", "must",
  "can", "this", "that", "these", "those", "i", "you", "he", "she", "it", "we",
  "they", "what", "which", "who", "when", "where", "why", "how", "all", "each",
  "every", "both", "few", "more", "most", "other", "some", "such", "no", "nor",
  "not", "only", "own", "same", "so", "than", "too", "very"]

/-- The character class of `/[。！？\n]+/`, the sentence-terminal split used
both by `extractKeywords` (Japanese branch) and `splitIntoSentences`. -/
def isSentencePunct (c : Char) : Bool :=
  decide (c = '。' ∨ c = '！' ∨ c = '？' ∨ c = '\n')

/-- The character class of `/[\s,.!?]+/`, the English word split. -/
def isWsOrAsciiPunct (c : Char) : Bool :=
  isWsChar c || decide (c = ',' ∨ c = '.' ∨ c = '!' ∨ c = '?')

/-- The regexp test `/^[\s、。！？,.!?]+$/.test(w)`. -/
def isPunctOnly (w : String) : Bool :=
  decide (w.data ≠ []) &&
    w.data.all fun c =>
      isWsChar c || decide (c = '、' ∨ c = '。' ∨ c = '！' ∨ c = '？' ∨
        c = ',' ∨ c = '.' ∨ c = '!' ∨ c = '?')

/-- The regexp test `/^\d+$/.test(w)`. -/
def isAllDigits (w : String) : Bool :=
  decide (w.data ≠ []) && w.data.all fun c => decide ('0' ≤ c ∧ c ≤ '9')

/-- One step of building the frequency `Map`: `wordFrequency.set(word,
(wordFrequency.get(word) || 0) + 1)`.  A JavaScript `Map` keeps insertion
order, so the map is an association list where a repeated key bumps the
existing entry in place and a new key is appended. -/
def bump : List (String × Nat) → String → List (String × Nat)
  | [], w => [(w, 1)]
  | (k, v) :: rest, w =>
      if k = w then (k, v + 1) :: rest else (k, v) :: bump rest w

/-- `extractKeywords(text)` (keyword-extractor.ts lines 77–115).  `seg` is the
external `segmenter.segment` (TinySegmenter). -/
def extractKeywords (seg : String → List String) (text : String) :
    List (String × Nat) :=
  let words :=
    if containsJapanese text then
      ((splitRuns isSentencePunct text).filter fun s => 0 < s.length).flatMap seg
    else
      (splitRuns isWsOrAsciiPunct text.toLower).filter fun w => 0 < w.length
  words.foldl
    (fun wordFrequency word =>
      let trimmedWord := (jsTrim word).toLower
      if trimmedWord.length = 0 ∨ isPunctOnly trimmedWord = true then wordFrequency
      else if STOP_WORDS.contains trimmedWord ∨ ENGLISH_STOP_WORDS.contains trimmedWord then
        wordFrequency
      else if trimmedWord.length < 2 ∨ isAllDigits trimmedWord = true then wordFrequency
      else bump wordFrequency trimmedWord)
    []

/-- The regexp test `/^[ァ-ヶー]+$/.test(word)` (whole word katakana). -/
def isAllKatakana (w : String) : Bool :=
  decide (w.data ≠ []) && w.data.all fun c => decide (('ァ' ≤ c ∧ c ≤ 'ヶ') ∨ c = 'ー')

/-- The regexp test `/^[A-Z]/.test(word)` (uppercase-initial). -/
def startsWithUppercase (w : String) : Bool :=
  match w.data with
  | [] => false
  | c :: _ => decide ('A' ≤ c ∧ c ≤ 'Z')

/-- `calculateWordWeight(word, frequency)` (keyword-extractor.ts lines
118–140): the weight starts as the frequency and, once `frequency >= 3`, is
multiplied by 1.2 for each of: all-katakana word, uppercase-initial word,
length at least 3. -/
def calculateWordWeight (word : String) (frequency : Nat) : ℚ :=
  let weight : ℚ := frequency
  if 3 ≤ frequency then
    let weight := if isAllKatakana word then weight * 1.2 else weight
    let weight := if startsWithUppercase word then weight * 1.2 else weight
    let weight := if 3 ≤ word.length then weight * 1.2 else weight
    weight
  else weight

/-- One entry of the `weightedWords` array of `generateWordCloudData`:
`{word, frequency, weight}`. -/
structure WeightedWord where
  word : String
  frequency : Nat
  weight : ℚ
deriving DecidableEq, Repr

/-- The comparator `(a, b) => b.weight - a.weight` (sort descending by
weight). -/
def weightDesc (a b : WeightedWord) : Prop := b.weight ≤ a.weight

instance : DecidableRel weightDesc := fun a b =>
  decidable_of_iff (b.weight ≤ a.weight) Iff.rfl

instance : IsTotal WeightedWord weightDesc :=
  ⟨fun a b => le_total b.weight a.weight⟩

instance : IsTrans WeightedWord weightDesc :=
  ⟨fun _ _ _ h1 h2 => le_trans h2 h1⟩

/-- The JavaScript idiom `x || 1` on a number: 1 when `x` is 0, else `x`
(used to avoid dividing by zero when `maxWeight == minWeight`). -/
def jsOrOne (x : ℚ) : ℚ := if x = 0 then 1 else x

/-- Min–max size normalization over the truncated ranking, from
`generateWordCloudData` (keyword-extractor.ts lines 378–404): for each word
`size = 0.5 + ((weight - minWeight) / (maxWeight - minWeight || 1)) * 1.5`,
where `maxWeight`/`minWeight` are the first/last weights of the
descending-sorted truncated array.  Returns each word with its size. -/
def normalizeSizes (sortedWords : List WeightedWord) : List (WeightedWord × ℚ) :=
  match sortedWords with
  | [] => []
  | w0 :: rest =>
      let maxWeight := w0.weight
      let minWeight := (List.getLast (w0 :: rest) (List.cons_ne_nil w0 rest)).weight
      (w0 :: rest).map fun w =>
        (w, 0.5 + (w.weight - minWeight) / jsOrOne (maxWeight - minWeight) * 1.5)

/-- `generateWordCloudData(transcripts, maxWords)` (keyword-extractor.ts
lines 359–405), apart from the random spherical placement and the
`Date.now()` timestamp, which carry no information about the ranking (the
claims are about `size` and `weight` only; position is sampled independently
of both).  Produces the truncated descending ranking, each entry paired with
its display size. -/
def generateWordCloudData (seg : String → List String)
    (transcripts : List String) (maxWords : Nat) : List (WeightedWord × ℚ) :=
  let fullText := String.intercalate " " transcripts
  let wordFrequency := extractKeywords seg fullText
  let weightedWords := wordFrequency.map fun p =>
    { word := p.1, frequency := p.2, weight := calculateWordWeight p.1 p.2 : WeightedWord }
  let sortedWords := (List.insertionSort weightDesc weightedWords).take maxWords
  normalizeSizes sortedWords

/-! ## Claim theorems about the word-mode scorer -/

/-- C3: two tokens with one raw frequency `f ≥ 3` and identical bonus
conditions apart from the uppercase-initial test — same all-katakana status,
same length-at-least-3 status, one uppercase-initial, the other not — get
strictly different word-mode weights, the uppercase-initial one strictly
greater (its weight picks up one extra factor 1.2). -/
theorem uppercaseInitial_weight_gt
    (w1 w2 : String) (f : Nat)
    (hf : 3 ≤ f)
    (hkat : isAllKatakana w1 = isAllKatakana w2)
    (hlen : 3 ≤ w1.length ↔ 3 ≤ w2.length)
    (hu1 : startsWithUppercase w1 = true)
    (hu2 : startsWithUppercase w2 = false) :
    calculateWordWeight w2 f < calculateWordWeight w1 f := by
  have hfq : (3 : ℚ) ≤ (f : ℚ) := by exact_mod_cast hf
  have hpos : (0 : ℚ) < (f : ℚ) := by linarith
  simp only [calculateWordWeight, if_pos hf]
  rw [hkat]
  by_cases hl1 : 3 ≤ w1.length
  · have hl2 : 3 ≤ w2.length := hlen.mp hl1
    cases hk : isAllKatakana w2 <;> simp [hk, hu1, hu2, hl1, hl2] <;> nlinarith
  · have hl2 : ¬ 3 ≤ w2.length := fun h => hl1 (hlen.mpr h)
    cases hk : isAllKatakana w2 <;> simp [hk, hu1, hu2, hl1, hl2] <;> nlinarith

/-- C3 (witness): `"Abc"` versus `"xyz"` at frequency 3. -/
theorem uppercaseInitial_weight_gt_witness :
    3 ≤ 3 ∧ isAllKatakana "Abc" = isAllKatakana "xyz" ∧
    (3 ≤ ("Abc" : String).length ↔ 3 ≤ ("xyz" : String).length) ∧
    startsWithUppercase "Abc" = true ∧ startsWithUppercase "xyz" = false ∧
    calculateWordWeight "xyz" 3 < calculateWordWeight "Abc" 3 :=
  ⟨by decide, by decide, by decide, by decide, by decide,
   uppercaseInitial_weight_gt "Abc" "xyz" 3 (by decide) (by decide) (by decide)
     (by decide) (by decide)⟩

/-! ## Helper lemmas for the size normalization -/

theorem sorted_getLast_le :
    ∀ (l : List WeightedWord), l.Sorted weightDesc → ∀ (hne : l ≠ []),
      ∀ x ∈ l, (l.getLast hne).weight ≤ x.weight := by
  intro l
  induction l with
  | nil => intro _ hne; exact absurd rfl hne
  | cons a t ih =>
      intro hs hne x hx
      cases t with
      | nil =>
          rcases List.mem_singleton.mp hx with rfl
          exact le_refl _
      | cons b t2 =>
          rw [List.getLast_cons (List.cons_ne_nil b t2)]
          rcases List.mem_cons.mp hx with rfl | hx2
          · exact List.rel_of_sorted_cons hs _
              (List.getLast_mem (List.cons_ne_nil b t2))
          · exact ih hs.of_cons (List.cons_ne_nil b t2) x hx2

theorem normalizeSizes_spec (l : List WeightedWord) (hs : l.Sorted weightDesc) :
    (∀ x ∈ normalizeSizes l, (0.5 : ℚ) ≤ x.2 ∧ x.2 ≤ 2) ∧
    (∀ a ∈ normalizeSizes l, ∀ b ∈ normalizeSizes l,
      b.1.weight ≤ a.1.weight → b.2 ≤ a.2) ∧
    (∀ a ∈ normalizeSizes l, ∀ b ∈ normalizeSizes l,
      a.1.weight = b.1.weight → a.2 = b.2) := by
  cases l with
  | nil => simp [normalizeSizes]
  | cons w0 rest =>
      have hne : w0 :: rest ≠ [] := List.cons_ne_nil w0 rest
      set minW := ((w0 :: rest).getLast hne).weight with hminW
      set maxW := w0.weight with hmaxW
      have hlow : ∀ x ∈ w0 :: rest, minW ≤ x.weight :=
        sorted_getLast_le (w0 :: rest) hs hne
      have hhigh : ∀ x ∈ w0 :: rest, x.weight ≤ maxW := by
        intro x hx
        rcases List.mem_cons.mp hx with rfl | hx2
        · exact le_refl _
        · exact List.rel_of_sorted_cons hs x hx2
      have hminmax : minW ≤ maxW := hhigh _ (List.getLast_mem hne)
      have hd : 0 < jsOrOne (maxW - minW) := by
        unfold jsOrOne
        split
        · norm_num
        · rename_i hz
          have : minW ≠ maxW := fun h => hz (by rw [h]; ring)
          have : minW < maxW := lt_of_le_of_ne hminmax this
          linarith
      have hsize_mono : ∀ x y : ℚ, x ≤ y →
          (0.5 : ℚ) + (x - minW) / jsOrOne (maxW - minW) * 1.5
            ≤ 0.5 + (y - minW) / jsOrOne (maxW - minW) * 1.5 := by
        intro x y hxy
        have h1 : (x - minW) / jsOrOne (maxW - minW)
            ≤ (y - minW) / jsOrOne (maxW - minW) :=
          (div_le_div_right hd).mpr (by linarith)
        nlinarith
      have hsize_bounds : ∀ x ∈ w0 :: rest,
          (0.5 : ℚ) ≤ 0.5 + (x.weight - minW) / jsOrOne (maxW - minW) * 1.5 ∧
          (0.5 : ℚ) + (x.weight - minW) / jsOrOne (maxW - minW) * 1.5 ≤ 2 := by
        intro x hx
        have hxlow : minW ≤ x.weight := hlow x hx
        have hxhigh : x.weight ≤ maxW := hhigh x hx
        constructor
        · have : 0 ≤ (x.weight - minW) / jsOrOne (maxW - minW) :=
            div_nonneg (by linarith) hd.le
          nlinarith
        · have hle1 : (x.weight - minW) / jsOrOne (maxW - minW) ≤ 1 := by
            unfold jsOrOne
            split
            · rename_i hz
              have : x.weight - minW ≤ 0 := by
                have : maxW = minW := by linarith [sub_eq_zero.mp hz]
                linarith
              linarith [this]
            · rename_i hz
              rw [div_le_one (by
                have : minW ≠ maxW := fun h => hz (by rw [h]; ring)
                have : minW < maxW := lt_of_le_of_ne hminmax this
                linarith)]
              linarith
          nlinarith
      refine ⟨?_, ?_, ?_⟩
      · intro x hx
        simp only [normalizeSizes] at hx
        obtain ⟨w, hw, rfl⟩ := List.mem_map.mp hx
        exact hsize_bounds w hw
      · intro a ha b hb hab
        simp only [normalizeSizes] at ha hb
        obtain ⟨wa, hwa, rfl⟩ := List.mem_map.mp ha
        obtain ⟨wb, hwb, rfl⟩ := List.mem_map.mp hb
        exact hsize_mono _ _ hab
      · intro a ha b hb hab
        simp only [normalizeSizes] at ha hb
        obtain ⟨wa, hwa, rfl⟩ := List.mem_map.mp ha
        obtain ⟨wb, hwb, rfl⟩ := List.mem_map.mp hb
        simp only at hab ⊢
        rw [hab]

/-- C7: for every word-mode ranking, every item's size lies in `[0.5, 2]`;
sizes are ordered the same way as weights (an item whose weight is at least
another's never gets a smaller size — covering min–max scaling over the
truncated set); and items of equal weight get equal sizes, in particular when
the maximum and minimum weights coincide every item gets the same size and no
division by zero occurs (the denominator `maxWeight - minWeight || 1` is 1
then). -/
theorem wordCloud_size_spec (seg : String → List String)
    (transcripts : List String) (maxWords : Nat) :
    (∀ x ∈ generateWordCloudData seg transcripts maxWords,
      (0.5 : ℚ) ≤ x.2 ∧ x.2 ≤ 2) ∧
    (∀ a ∈ generateWordCloudData seg transcripts maxWords,
      ∀ b ∈ generateWordCloudData seg transcripts maxWords,
        b.1.weight ≤ a.1.weight → b.2 ≤ a.2) ∧
    (∀ a ∈ generateWordCloudData seg transcripts maxWords,
      ∀ b ∈ generateWordCloudData seg transcripts maxWords,
        a.1.weight = b.1.weight → a.2 = b.2) := by
  simp only [generateWordCloudData]
  apply normalizeSizes_spec
  exact List.Pairwise.sublist (List.take_sublist _ _)
    (List.sorted_insertionSort weightDesc _)

/-! ## The sentence-mode scorer (`src/lib/keyword-extractor.ts` lines 142–321) -/

/-- `SENTENCE_MIN_LENGTH` (line 16). -/
def SENTENCE_MIN_LENGTH : Nat := 5

/-- `SENTENCE_MAX_LENGTH` (line 17). -/
def SENTENCE_MAX_LENGTH : Nat := 60

/-- `SENTENCE_SPLIT_THRESHOLD` (line 18). -/
def SENTENCE_SPLIT_THRESHOLD : Nat := 40

/-- `SENTENCE_MAX_COMBINE_LENGTH` (line 19). -/
def SENTENCE_MAX_COMBINE_LENGTH : Nat := 50

/-- `SIMILARITY_THRESHOLD` (line 22). -/
def SIMILARITY_THRESHOLD : ℚ := 0.3

/-- `GLOBAL_FREQ_WEIGHT` (line 25). -/
def GLOBAL_FREQ_WEIGHT : ℚ := 10

/-- `SIMILARITY_WEIGHT` (line 26). -/
def SIMILARITY_WEIGHT : ℚ := 20

/-- `COOCCURRENCE_BONUS` (line 27). -/
def COOCCURRENCE_BONUS : ℚ := 0.3

/-- `REPETITION_BONUS` (line 28). -/
def REPETITION_BONUS : ℚ := 0.5

/-- `SINGLE_SIMILAR_BONUS` (line 29). -/
def SINGLE_SIMILAR_BONUS : ℚ := 1.3

/-- `KEYWORD_DENSITY_BONUS` (line 30). -/
def KEYWORD_DENSITY_BONUS : ℚ := 0.3

/-- `LONG_SENTENCE_PENALTY` (line 31). -/
def LONG_SENTENCE_PENALTY : ℚ := 0.8

/-- `MIN_KEYWORD_FREQ` (line 34). -/
def MIN_KEYWORD_FREQ : Nat := 2

/-- The alternatives of the sentence-final regexp
`/(?:です|ます|でした|ました|だった|である|だ|た|ね|よ|の|か)$/`. -/
def sentenceEndPatterns : List String :=
  ["です", "ます", "でした", "ました", "だった", "である", "だ", "た", "ね", "よ", "の", "か"]

/-- The test of that regexp: the phrase ends in one of the patterns. -/
def endsSentencePattern (phrase : String) : Bool :=
  sentenceEndPatterns.any fun p => phrase.endsWith p

/-- One step of the phrase-recombination loop inside `splitIntoSentences`
(lines 165–187).  The state is `(allSentences-so-far, currentSentence)`. -/
def combinePhrase (st : List String × String) (phrase : String) :
    List String × String :=
  let combined := st.2 ++ phrase
  if endsSentencePattern phrase then
    if SENTENCE_MIN_LENGTH * 2 ≤ combined.length then (st.1 ++ [combined], "")
    else (st.1, combined)
  else if SENTENCE_MAX_COMBINE_LENGTH < combined.length then
    (if SENTENCE_MIN_LENGTH * 2 ≤ st.2.length then st.1 ++ [st.2] else st.1, phrase)
  else (st.1, combined)

/-- `splitIntoSentences(text)` (lines 143–201).  `bud` is the external BudouX
`parser.parse`; since it is a total Lean function, the `catch` branch for a
BudouX exception is unreachable. -/
def splitIntoSentences (bud : String → List String) (text : String) :
    List String :=
  let punctuatedSentences :=
    (splitRuns isSentencePunct text).filter fun s => 0 < (jsTrim s).length
  let allSentences := punctuatedSentences.flatMap fun sentence =>
    let trimmed := jsTrim sentence
    if trimmed.length ≤ SENTENCE_SPLIT_THRESHOLD then [trimmed]
    else
      let phrases := bud trimmed
      let final := phrases.foldl combinePhrase ([], "")
      final.1 ++
        (if SENTENCE_MIN_LENGTH * 2 ≤ (jsTrim final.2).length
          then [jsTrim final.2] else [])
  allSentences.filter fun s => 0 < s.length

/-- `calculateSimilarity(words1, words2)` (lines 204–209): the Jaccard
coefficient of two token sets (here lists without duplicates, as the keys of
an `extractKeywords` map always are). -/
def calculateSimilarity (words1 words2 : List String) : ℚ :=
  let intersection := words1.filter fun w => words2.contains w
  let union := words1 ++ words2.filter fun w => ! words1.contains w
  if union.length = 0 then 0 else (intersection.length : ℚ) / (union.length : ℚ)

/-- `calculateSentenceScore(sentence, wordFrequency, allWords, allSentences,
sentenceIndex)` (lines 212–286).  `allWords` is passed by the caller but never
read, exactly as in the source. -/
def calculateSentenceScore (seg : String → List String) (sentence : String)
    (wordFrequency : List (String × Nat)) (allWords : List String)
    (allSentences : List (String × List String)) (sentenceIndex : Nat) : ℚ :=
  if sentence.length < SENTENCE_MIN_LENGTH then 0
  else if SENTENCE_MAX_LENGTH < sentence.length then 0
  else
    let sentenceWords := extractKeywords seg sentence
    let sentenceWordSet := sentenceWords.map fun p => p.1
    let globalFreq := fun w => ((wordFrequency.lookup w).getD 0)
    let qualifying := sentenceWords.filter fun p => MIN_KEYWORD_FREQ ≤ globalFreq p.1
    let score0 : ℚ :=
      (qualifying.map fun p => (globalFreq p.1 : ℚ) * GLOBAL_FREQ_WEIGHT).sum
    let keywordCount := qualifying.length
    if keywordCount = 0 then 0
    else
      let similarities :=
        ((allSentences.enum.filter fun q => q.1 ≠ sentenceIndex).map fun q =>
          calculateSimilarity sentenceWordSet q.2.2).filter fun s =>
            SIMILARITY_THRESHOLD ≤ s
      let similarSentenceCount := similarities.length
      let score1 := score0 + (similarities.map fun s => s * SIMILARITY_WEIGHT).sum
      let importantWords := sentenceWordSet.filter fun w => MIN_KEYWORD_FREQ ≤ globalFreq w
      let score2 :=
        if 2 ≤ importantWords.length then
          score1 * (1 + (importantWords.length : ℚ) * COOCCURRENCE_BONUS)
        else score1
      let score3 :=
        if 2 ≤ similarSentenceCount then
          score2 * (1 + (similarSentenceCount : ℚ) * REPETITION_BONUS)
        else if similarSentenceCount = 1 then score2 * SINGLE_SIMILAR_BONUS
        else score2
      let keywordDensity : ℚ := (keywordCount : ℚ) / ((sentence.length : ℚ) / 10)
      let score4 := score3 * (1 + keywordDensity * KEYWORD_DENSITY_BONUS)
      if SENTENCE_MAX_COMBINE_LENGTH < sentence.length then
        score4 * LONG_SENTENCE_PENALTY
      else score4

/-- The comparator `(a, b) => b.score - a.score` (sort descending by score). -/
def scoreDesc (a b : String × ℚ) : Prop := b.2 ≤ a.2

instance : DecidableRel scoreDesc := fun a b =>
  decidable_of_iff (b.2 ≤ a.2) Iff.rfl

instance : IsTotal (String × ℚ) scoreDesc := ⟨fun a b => le_total b.2 a.2⟩

instance : IsTrans (String × ℚ) scoreDesc := ⟨fun _ _ _ h1 h2 => le_trans h2 h1⟩

/-- `extractImportantSentences(transcripts, maxSentences)` (lines 289–321):
score every candidate sentence, keep those with positive score, sort
descending and truncate. -/
def extractImportantSentences (seg bud : String → List String)
    (transcripts : List String) (maxSentences : Nat) : List (String × ℚ) :=
  let fullText := String.intercalate " " transcripts
  let wordFrequency := extractKeywords seg fullText
  let allWords := wordFrequency.map fun p => p.1
  let sentences := splitIntoSentences bud fullText
  let allSentences := sentences.map fun s => (s, (extractKeywords seg s).map fun p => p.1)
  let scoredSentences :=
    (sentences.enum.map fun q =>
      (q.2, calculateSentenceScore seg q.2 wordFrequency allWords allSentences q.1)).filter
      fun p => 0 < p.2
  (List.insertionSort scoreDesc scoredSentences).take maxSentences

/-! ## Claim theorem about the sentence-mode scorer -/

theorem calculateSentenceScore_zero_out_of_range (seg : String → List String)
    (sentence : String) (wordFrequency : List (String × Nat))
    (allWords : List String) (allSentences : List (String × List String))
    (sentenceIndex : Nat)
    (h : sentence.length < SENTENCE_MIN_LENGTH ∨ SENTENCE_MAX_LENGTH < sentence.length) :
    calculateSentenceScore seg sentence wordFrequency allWords allSentences sentenceIndex = 0 := by
  unfold calculateSentenceScore
  rcases h with h | h
  · rw [if_pos h]
  · rw [if_neg (by simp only [SENTENCE_MIN_LENGTH, SENTENCE_MAX_LENGTH] at h ⊢; omega),
      if_pos h]

/-- C8: the sentence-mode ranking never outputs an item whose text is shorter
than `SENTENCE_MIN_LENGTH` (5) characters or longer than
`SENTENCE_MAX_LENGTH` (60) characters: such candidates score 0 and are
filtered out before sorting and truncation. -/
theorem sentence_ranking_length_bounds (seg bud : String → List String)
    (transcripts : List String) (maxSentences : Nat) :
    (∀ p ∈ extractImportantSentences seg bud transcripts maxSentences,
      SENTENCE_MIN_LENGTH ≤ p.1.length) ∧
    (∀ p ∈ extractImportantSentences seg bud transcripts maxSentences,
      p.1.length ≤ SENTENCE_MAX_LENGTH) := by
  have key : ∀ p ∈ extractImportantSentences seg bud transcripts maxSentences,
      SENTENCE_MIN_LENGTH ≤ p.1.length ∧ p.1.length ≤ SENTENCE_MAX_LENGTH := by
    intro p hp
    simp only [extractImportantSentences] at hp
    have hp2 := List.take_subset _ _ hp
    have hp3 := (List.mem_insertionSort scoreDesc).mp hp2
    have hscore : (0 : ℚ) < p.2 := by
      have := List.of_mem_filter hp3
      exact of_decide_eq_true this
    have hp4 := List.mem_of_mem_filter hp3
    obtain ⟨q, hq, rfl⟩ := List.mem_map.mp hp4
    dsimp only at hscore ⊢
    constructor
    · by_contra hlt
      rw [calculateSentenceScore_zero_out_of_range _ _ _ _ _ _ (Or.inl (by omega))] at hscore
      exact lt_irrefl 0 hscore
    · by_contra hgt
      rw [calculateSentenceScore_zero_out_of_range _ _ _ _ _ _ (Or.inr (by omega))] at hscore
      exact lt_irrefl 0 hscore
  exact ⟨fun p hp => (key p hp).1, fun p hp => (key p hp).2⟩

/-! ## The session manager (`lib/transcription-data-manager.ts`)

`TranscriptionDataManager` owns two IndexedDB stores — `transcripts` keyed by
`timestamp` and `sessions` keyed by `id` — plus the `currentSessionId` field.
Both stores are modelled as lists of records with unique keys (`put` replaces
the record with the same key, else appends).  `Date.now()` reads and the
date-derived fresh session id are parameters. -/

/-- `SessionMetadata` of `src/types/speech.ts`. -/
structure SessionMetadata where
  createdAt : Int
  updatedAt : Int
  totalDuration : Int
  totalTranscripts : Nat
  totalWords : Nat
  language : String
deriving DecidableEq, Repr

/-- The `displayMode` of a snapshot: `'words' | 'sentences'`. -/
inductive DisplayMode where
  | words
  | sentences
deriving DecidableEq, Repr

/-- `Word` of `src/types/speech.ts` (a rendered cloud item; its numeric
fields are JavaScript numbers, embedded as exact rationals). -/
structure CloudWord where
  text : String
  timestamp : Int
  frequency : Nat
  position : ℚ × ℚ × ℚ
  size : ℚ
deriving DecidableEq, Repr

/-- `WordCloudSnapshot` of `src/types/speech.ts`. -/
structure WordCloudSnapshot where
  generatedAt : Int
  displayMode : DisplayMode
  words : List CloudWord
  version : String
deriving DecidableEq, Repr

/-- One record of the `sessions` store: `{id, metadata, wordCloudSnapshot?}`. -/
structure StoredSession where
  id : String
  metadata : SessionMetadata
  wordCloudSnapshot : Option WordCloudSnapshot
deriving DecidableEq, Repr

/-- The state a `TranscriptionDataManager` instance operates on: the two
stores and the `currentSessionId` field. -/
structure ManagerState where
  transcripts : List Transcript
  sessions : List StoredSession
  currentSessionId : Option String
deriving DecidableEq, Repr

/-- `db.put(TRANSCRIPTS_STORE, transcript)`: replace the record keyed by the
same timestamp, else add. -/
def putByTimestamp (store : List Transcript) (t : Transcript) : List Transcript :=
  if store.any (fun u => u.timestamp == t.timestamp) then
    store.map fun u => if u.timestamp == t.timestamp then t else u
  else store ++ [t]

/-- `db.put(SESSIONS_STORE, session)`: replace the record keyed by the same
id, else add. -/
def putSession (sessions : List StoredSession) (s : StoredSession) :
    List StoredSession :=
  if sessions.any (fun u => u.id == s.id) then
    sessions.map fun u => if u.id == s.id then s else u
  else sessions ++ [s]

/-- `db.get(SESSIONS_STORE, sessionId)`. -/
def findSession (sessions : List StoredSession) (sessionId : String) :
    Option StoredSession :=
  sessions.find? fun s => s.id == sessionId

/-- The `by-created` index order read with a `'prev'` cursor (descending
`metadata.createdAt`). -/
def createdDesc (a b : StoredSession) : Prop :=
  b.metadata.createdAt ≤ a.metadata.createdAt

instance : DecidableRel createdDesc := fun a b =>
  decidable_of_iff (b.metadata.createdAt ≤ a.metadata.createdAt) Iff.rfl

instance : IsTotal StoredSession createdDesc :=
  ⟨fun a b => le_total b.metadata.createdAt a.metadata.createdAt⟩

instance : IsTrans StoredSession createdDesc :=
  ⟨fun _ _ _ h1 h2 => le_trans h2 h1⟩

/-- `getLatestSession()` (transcription-data-manager.ts lines 751–762): the
first record under a descending `by-created` cursor, `null` when the store is
empty. -/
def latestSession (sessions : List StoredSession) : Option StoredSession :=
  (List.insertionSort createdDesc sessions).head?

/-- `transcript.text.split(/\s+/).length`, the word count added to
`totalWords` by `updateSessionMetadata` (line 743). -/
def wordCount (text : String) : Nat :=
  (splitRuns isWsChar text).length

/-- `startSession(language)` (lines 153–182): store a fresh session with
zeroed counters and make it current.  `newId` is the `generateSessionId()`
result and `now` the `Date.now()` read. -/
def startSession (st : ManagerState) (newId : String) (now : Int)
    (language : String) : String × ManagerState :=
  let session : StoredSession :=
    { id := newId,
      metadata :=
        { createdAt := now, updatedAt := now, totalDuration := 0,
          totalTranscripts := 0, totalWords := 0, language := language },
      wordCloudSnapshot := none }
  (newId, { st with sessions := putSession st.sessions session,
                    currentSessionId := some newId })

/-- `getCurrentSessionId()` (lines 187–201): the current id if set, else the
most recently created session, else a fresh session (with the default
language `'ja-JP'`). -/
def getCurrentSessionId (st : ManagerState) (newId : String) (now : Int) :
    String × ManagerState :=
  match st.currentSessionId with
  | some id => (id, st)
  | none =>
      match latestSession st.sessions with
      | some s => (s.id, { st with currentSessionId := some s.id })
      | none => startSession st newId now "ja-JP"

/-- The metadata mutation of `updateSessionMetadata` (lines 741–743):
`updatedAt = Date.now()`, `totalTranscripts += 1`,
`totalWords += wordCount(transcript.text)`. -/
def bumpMetadata (s : StoredSession) (transcript : Transcript) (now : Int) :
    StoredSession :=
  { s with metadata :=
      { s.metadata with
        updatedAt := now,
        totalTranscripts := s.metadata.totalTranscripts + 1,
        totalWords := s.metadata.totalWords + wordCount transcript.text } }

/-- `updateSessionMetadata(sessionId, transcript)` (lines 723–746): look the
session up; if absent, log and change nothing; else bump its counters and put
it back.  `now` is the `Date.now()` read. -/
def updateSessionMetadata (st : ManagerState) (sessionId : String)
    (transcript : Transcript) (now : Int) : ManagerState :=
  match findSession st.sessions sessionId with
  | none => st
  | some session =>
      { st with sessions := putSession st.sessions (bumpMetadata session transcript now) }

/-- `addTranscript(transcript)` (lines 206–226): put the transcript, resolve
the current session, bump its counters.  `newId`/`nowCreate` feed a lazy
session creation, `nowUpdate` the metadata update. -/
def addTranscript (st : ManagerState) (transcript : Transcript)
    (newId : String) (nowCreate nowUpdate : Int) : ManagerState :=
  let st1 := { st with transcripts := putByTimestamp st.transcripts transcript }
  let r := getCurrentSessionId st1 newId nowCreate
  updateSessionMetadata r.2 r.1 transcript nowUpdate

/-! ## Helper lemmas about the session stores -/

theorem find?_map_replace :
    ∀ (sessions : List StoredSession) (s' : StoredSession),
      (∃ u ∈ sessions, u.id = s'.id) →
      (sessions.map fun u => if u.id == s'.id then s' else u).find?
          (fun x => x.id == s'.id) = some s' := by
  intro sessions s'
  induction sessions with
  | nil => rintro ⟨u, hu, _⟩; cases hu
  | cons a rest ih =>
      rintro ⟨u, hu, hid⟩
      by_cases h : a.id = s'.id
      · simp [h]
      · have hbeq : (a.id == s'.id) = false := by simp [h]
        simp only [List.map_cons, hbeq, Bool.false_eq_true, if_false]
        rw [List.find?_cons_of_neg _ (by simp [hbeq])]
        apply ih
        rcases List.mem_cons.mp hu with rfl | hu2
        · exact absurd hid h
        · exact ⟨u, hu2, hid⟩

theorem latestSession_none (sessions : List StoredSession)
    (h : latestSession sessions = none) : sessions = [] := by
  cases hs : sessions with
  | nil => rfl
  | cons a rest =>
      exfalso
      rw [hs] at h
      unfold latestSession at h
      cases hsort : List.insertionSort createdDesc (a :: rest) with
      | nil =>
          have hlen := (List.perm_insertionSort createdDesc (a :: rest)).length_eq
          rw [hsort] at hlen
          simp at hlen
      | cons b l =>
          rw [hsort] at h
          simp at h

theorem getCurrentSessionId_sessions (st : ManagerState) (newId : String)
    (now : Int) :
    (getCurrentSessionId st newId now).2.sessions = st.sessions ∨
    st.sessions = [] := by
  unfold getCurrentSessionId
  cases hcur : st.currentSessionId with
  | some id => left; rfl
  | none =>
      cases hlat : latestSession st.sessions with
      | some s => left; rfl
      | none => right; exact latestSession_none _ hlat

theorem updateSessionMetadata_find (st : ManagerState) (sid : String)
    (t : Transcript) (now : Int) (s : StoredSession)
    (hfind : findSession st.sessions sid = some s) :
    findSession (updateSessionMetadata st sid t now).sessions sid
      = some (bumpMetadata s t now) := by
  unfold updateSessionMetadata
  rw [hfind]
  dsimp only
  have hfind' : st.sessions.find? (fun x => x.id == sid) = some s := hfind
  have hsid : s.id = sid := by simpa using List.find?_some hfind'
  have hmem : s ∈ st.sessions := List.mem_of_find?_eq_some hfind'
  have hbid : (bumpMetadata s t now).id = s.id := rfl
  have h2 : sid = (bumpMetadata s t now).id := by rw [hbid, hsid]
  unfold findSession putSession
  rw [if_pos (List.any_eq_true.mpr ⟨s, hmem, by simp [bumpMetadata]⟩), h2]
  exact find?_map_replace st.sessions (bumpMetadata s t now) ⟨s, hmem, hbid.symm⟩

theorem updateSessionMetadata_mono (st : ManagerState) (sid : String)
    (t : Transcript) (now : Int)
    (hnodup : (st.sessions.map (fun s => s.id)).Nodup) :
    ∀ s ∈ st.sessions, ∀ s' ∈ (updateSessionMetadata st sid t now).sessions,
      s'.id = s.id →
      s.metadata.totalTranscripts ≤ s'.metadata.totalTranscripts ∧
      s.metadata.totalWords ≤ s'.metadata.totalWords := by
  intro s hs s' hs' hid
  unfold updateSessionMetadata at hs'
  cases hfind : findSession st.sessions sid with
  | none =>
      rw [hfind] at hs'
      have hss : s' = s := List.inj_on_of_nodup_map hnodup hs' hs hid
      rw [hss]
      exact ⟨le_refl _, le_refl _⟩
  | some session =>
      rw [hfind] at hs'
      dsimp only at hs'
      have hfind' : st.sessions.find? (fun x => x.id == sid) = some session := hfind
      have hmem : session ∈ st.sessions := List.mem_of_find?_eq_some hfind'
      unfold putSession at hs'
      rw [if_pos (List.any_eq_true.mpr ⟨session, hmem, by simp [bumpMetadata]⟩)] at hs'
      obtain ⟨u, hu, hueq⟩ := List.mem_map.mp hs'
      by_cases hcase : u.id = (bumpMetadata session t now).id
      · rw [if_pos (by simp [hcase])] at hueq
        have hsess : session = s := by
          apply List.inj_on_of_nodup_map hnodup hmem hs
          rw [← hueq] at hid
          exact hid
        rw [← hueq, ← hsess]
        exact ⟨Nat.le_succ _, Nat.le_add_right _ _⟩
      · rw [if_neg (by simp [hcase])] at hueq
        rw [← hueq] at hid ⊢
        have hus : u = s := List.inj_on_of_nodup_map hnodup hu hs hid
        rw [hus]
        exact ⟨le_refl _, le_refl _⟩

/-! ## Claim theorem about the session manager -/

/-- C9: for every state whose sessions store has unique ids, one
`addTranscript` call (1) never decreases any session's `totalTranscripts` or
`totalWords` counter, and (2) for the resolved current session it sets
`updatedAt` to the mutation's `Date.now()` read and increases
`totalTranscripts` by exactly 1 and `totalWords` by exactly the word count of
the entry's text. -/
theorem addTranscript_counters
    (st : ManagerState) (t : Transcript) (newId : String) (nowC nowU : Int)
    (hnodup : (st.sessions.map (fun s => s.id)).Nodup) :
    (∀ s ∈ st.sessions, ∀ s' ∈ (addTranscript st t newId nowC nowU).sessions,
        s'.id = s.id →
        s.metadata.totalTranscripts ≤ s'.metadata.totalTranscripts ∧
        s.metadata.totalWords ≤ s'.metadata.totalWords) ∧
    (∀ s : StoredSession,
      findSession (getCurrentSessionId
          { st with transcripts := putByTimestamp st.transcripts t } newId nowC).2.sessions
          (getCurrentSessionId
          { st with transcripts := putByTimestamp st.transcripts t } newId nowC).1 = some s →
      findSession (addTranscript st t newId nowC nowU).sessions
          (getCurrentSessionId
          { st with transcripts := putByTimestamp st.transcripts t } newId nowC).1
        = some (bumpMetadata s t nowU)) := by
  constructor
  · intro s hs s' hs' hid
    simp only [addTranscript] at hs'
    rcases getCurrentSessionId_sessions
        { st with transcripts := putByTimestamp st.transcripts t } newId nowC with heq | hempt
    · refine updateSessionMetadata_mono _ _ t nowU ?_ s ?_ s' hs' hid
      · rw [heq]; exact hnodup
      · rw [heq]; exact hs
    · have hempt' : st.sessions = [] := hempt
      rw [hempt'] at hs
      cases hs
  · intro s hfind
    exact updateSessionMetadata_find _ _ t nowU s hfind

/-- A concrete one-session state for the witness. -/
def mgrSession : StoredSession :=
  { id := "s1",
    metadata :=
      { createdAt := 0, updatedAt := 0, totalDuration := 0,
        totalTranscripts := 2, totalWords := 5, language := "ja-JP" },
    wordCloudSnapshot := none }

/-- A concrete manager state for the witness. -/
def mgrState : ManagerState :=
  { transcripts := [], sessions := [mgrSession], currentSessionId := some "s1" }

/-- A concrete entry for the witness. -/
def mgrEntry : Transcript := { text := "hello world", timestamp := 42, isFinal := true }

/-- C9 (witness): the counter facts at a concrete one-session state. -/
theorem addTranscript_counters_witness :
    ((mgrState.sessions.map (fun s => s.id)).Nodup) ∧
    ((∀ s ∈ mgrState.sessions,
        ∀ s' ∈ (addTranscript mgrState mgrEntry "n" 10 11).sessions,
        s'.id = s.id →
        s.metadata.totalTranscripts ≤ s'.metadata.totalTranscripts ∧
        s.metadata.totalWords ≤ s'.metadata.totalWords) ∧
      (∀ s : StoredSession,
        findSession (getCurrentSessionId
            { mgrState with transcripts := putByTimestamp mgrState.transcripts mgrEntry } "n" 10).2.sessions
            (getCurrentSessionId
            { mgrState with transcripts := putByTimestamp mgrState.transcripts mgrEntry } "n" 10).1 = some s →
        findSession (addTranscript mgrState mgrEntry "n" 10 11).sessions
            (getCurrentSessionId
            { mgrState with transcripts := putByTimestamp mgrState.transcripts mgrEntry } "n" 10).1
          = some (bumpMetadata s mgrEntry 11))) :=
  ⟨by decide, addTranscript_counters mgrState mgrEntry "n" 10 11 (by decide)⟩

end Transcription
